import Mathlib

/-!
Verification development for the closed-end-fund 3-year z-score calculator
(src/server/scripts/calculate_zscore_tiingo.py, function calculate_z_score_3yr).

The embedding models calendar dates as year/month/day triples ordered
lexicographically (string dates YYYY-MM-DD compare the same way), prices as
rationals, and the final square root and z-score over the reals.  The
pandas pipeline is translated stage by stage:

- pd.merge(price_df, nav_df, on=date)            -> innerJoinOnDate
- positivity filter on close_price and close_nav -> positiveOnly
- sort_values(date)                               -> sortByDate
- filter date <= current_date                     -> availObs
- end = max date, start = end - DateOffset(3yr),
  window filter                                   -> selectWindow
- threshold check and statistics (lines 144-196)  -> scoreWindow, statsResult

The result dictionary is modelled by ZDict with Option fields, so that the
two dictionary shapes of the source (insufficient_data with three keys,
active with the full set of keys) are represented faithfully.
-/

structure Date where
  year : Nat
  month : Nat
  day : Nat
deriving DecidableEq, Repr

def Date.leP (a b : Date) : Prop :=
  a.year < b.year ∨ (a.year = b.year ∧
    (a.month < b.month ∨ (a.month = b.month ∧ a.day ≤ b.day)))

def Date.ltP (a b : Date) : Prop :=
  a.year < b.year ∨ (a.year = b.year ∧
    (a.month < b.month ∨ (a.month = b.month ∧ a.day < b.day)))

instance Date.decLeP : ∀ a b : Date, Decidable (Date.leP a b) := fun a b =>
  decidable_of_iff (a.year < b.year ∨ (a.year = b.year ∧
    (a.month < b.month ∨ (a.month = b.month ∧ a.day ≤ b.day)))) Iff.rfl

instance Date.decLtP : ∀ a b : Date, Decidable (Date.ltP a b) := fun a b =>
  decidable_of_iff (a.year < b.year ∨ (a.year = b.year ∧
    (a.month < b.month ∨ (a.month = b.month ∧ a.day < b.day)))) Iff.rfl

instance : LinearOrder Date where
  le := Date.leP
  lt := Date.ltP
  le_refl a := Or.inr ⟨rfl, Or.inr ⟨rfl, Nat.le_refl _⟩⟩
  le_trans a b c h1 h2 := by
    unfold Date.leP at h1 h2 ⊢
    rcases h1 with h1 | ⟨e1, h1 | ⟨e1m, h1⟩⟩ <;> rcases h2 with h2 | ⟨e2, h2 | ⟨e2m, h2⟩⟩ <;>
      first
        | (left; omega)
        | (right; constructor; omega; left; omega)
        | (right; constructor; omega; right; constructor; omega; omega)
  le_antisymm a b h1 h2 := by
    obtain ⟨y1, m1, d1⟩ := a
    obtain ⟨y2, m2, d2⟩ := b
    unfold Date.leP at h1 h2
    simp only at h1 h2
    simp only [Date.mk.injEq]
    rcases h1 with h1 | ⟨e1, h1 | ⟨e1m, h1⟩⟩ <;> rcases h2 with h2 | ⟨e2, h2 | ⟨e2m, h2⟩⟩ <;>
      (constructor; omega; constructor; omega; omega)
  le_total a b := by
    unfold Date.leP
    rcases Nat.lt_trichotomy a.year b.year with h | h | h
    · left; left; exact h
    · rcases Nat.lt_trichotomy a.month b.month with hm | hm | hm
      · left; right; exact ⟨h, Or.inl hm⟩
      · rcases Nat.le_total a.day b.day with hd | hd
        · left; right; exact ⟨h, Or.inr ⟨hm, hd⟩⟩
        · right; right; exact ⟨h.symm, Or.inr ⟨hm.symm, hd⟩⟩
      · right; right; exact ⟨h.symm, Or.inl hm⟩
    · right; left; exact h
  lt_iff_le_not_le a b := by
    change Date.ltP a b ↔ Date.leP a b ∧ ¬ Date.leP b a
    unfold Date.leP Date.ltP
    constructor
    · rintro (h | ⟨e, hm | ⟨em, hd⟩⟩)
      · exact ⟨Or.inl h, by omega⟩
      · exact ⟨Or.inr ⟨e, Or.inl hm⟩, by omega⟩
      · exact ⟨Or.inr ⟨e, Or.inr ⟨em, Nat.le_of_lt hd⟩⟩, by omega⟩
    · rintro ⟨h1 | ⟨e1, hm | ⟨em, hd⟩⟩, h2⟩
      · exact Or.inl h1
      · exact Or.inr ⟨e1, Or.inl hm⟩
      · refine Or.inr ⟨e1, Or.inr ⟨em, ?_⟩⟩
        omega
  decidableLE := Date.decLeP
  decidableLT := Date.decLtP
  decidableEq := inferInstance

def isLeapYear (y : Nat) : Bool :=
  y % 4 == 0 && (y % 100 != 0 || y % 400 == 0)

def daysInMonth (y m : Nat) : Nat :=
  if m = 2 then (if isLeapYear y then 29 else 28)
  else if m = 4 ∨ m = 6 ∨ m = 9 ∨ m = 11 then 30
  else 31

/-- Calendar-year subtraction with the semantics of
pandas DateOffset(years=n): keep the month and day, clamping the day to the
last valid day of the target month (so 2024-02-29 minus 3 years is
2021-02-28). -/
def Date.subYears (d : Date) (n : Nat) : Date :=
  ⟨d.year - n, d.month, min d.day (daysInMonth (d.year - n) d.month)⟩

/-- One row of a raw input series: the date and the close price
(the other columns of the source records play no role in the computation). -/
structure RawPoint where
  date : Date
  close : ℚ
deriving DecidableEq, Repr

/-- One row of the merged frame: a date present in both series together
with the two closes (columns close_price and close_nav of the source). -/
structure Obs where
  date : Date
  close_price : ℚ
  close_nav : ℚ
deriving DecidableEq, Repr

/-- Inner join of the two series on exact date equality,
modelling pd.merge(price_df, nav_df, on=date) at line 112. -/
def innerJoinOnDate (price nav : List RawPoint) : List Obs :=
  price.flatMap fun p =>
    (nav.filter fun q => decide (q.date = p.date)).map fun q =>
      ⟨p.date, p.close, q.close⟩

/-- Positivity filter of lines 115-118: keep only rows where both closes
are strictly positive. -/
def positiveOnly (l : List Obs) : List Obs :=
  l.filter fun o => decide (0 < o.close_price) && decide (0 < o.close_nav)

/-- Comparison by date used for the ascending sort of line 125. -/
def byDate (a b : Obs) : Prop := a.date ≤ b.date

instance : DecidableRel byDate := fun a b =>
  decidable_of_iff (a.date ≤ b.date) Iff.rfl

instance : IsTotal Obs byDate := ⟨fun a b => le_total a.date b.date⟩

instance : IsTrans Obs byDate := ⟨fun _ _ _ h1 h2 => le_trans h1 h2⟩

/-- Ascending sort by date (merged.sort_values at line 125). -/
def sortByDate (l : List Obs) : List Obs :=
  List.insertionSort byDate l

/-- The aligned sequence handed to the windowing step: merged rows with
positive closes, sorted ascending by date. -/
def alignObs (price nav : List RawPoint) : List Obs :=
  sortByDate (positiveOnly (innerJoinOnDate price nav))

/-- Restriction to observations not after the as-of date
(line 129: merged[date <= current_date]). -/
def availObs (l : List Obs) (current : Date) : List Obs :=
  l.filter fun o => decide (o.date ≤ current)

/-- Maximum date of a nonempty collection of rows
(available_data[date].max() at line 135). -/
def windowEnd (a : Obs) (rest : List Obs) : Date :=
  rest.foldl (fun acc o => if acc < o.date then o.date else acc) a.date

/-- Window selection of lines 131-142: fail on an empty candidate list,
otherwise take end as the maximum candidate date, start as end minus three
calendar years, and keep the candidates inside [start, end]. -/
def selectWindow (avail : List Obs) : Option (List Obs × Date × Date) :=
  match avail with
  | [] => none
  | a :: rest =>
    let endD := windowEnd a rest
    let startD := endD.subYears 3
    some ((a :: rest).filter fun o =>
      decide (startD ≤ o.date) && decide (o.date ≤ endD), startD, endD)

/-- Premium/discount column of line 153: close_price / close_nav - 1. -/
def prem_disc (w : List Obs) : List ℚ :=
  w.map fun o => o.close_price / o.close_nav - 1

/-- Current premium/discount: the value in the last row (iloc[-1], line 156). -/
def current_pd (w : List Obs) : ℚ :=
  (prem_disc w).getLastD 0

/-- Mean premium/discount over the whole window (line 159). -/
def avg_pd (w : List Obs) : ℚ :=
  (prem_disc w).sum / ((prem_disc w).length : ℚ)

/-- Population variance of line 163: sum of squared deviations from the
mean divided by the number of observations. -/
def variance (w : List Obs) : ℚ :=
  ((prem_disc w).map fun x => (x - avg_pd w) ^ 2).sum / ((prem_disc w).length : ℚ)

/-- Population standard deviation of line 164. -/
noncomputable def stddev_pd (w : List Obs) : ℝ :=
  Real.sqrt ((variance w : ℚ) : ℝ)

/-- Result dictionary.  The source returns dictionaries with different key
sets; a key absent from a given dictionary is modelled by none. -/
structure ZDict where
  status : String
  z_score : Option ℝ
  current_pd : Option ℝ
  current_pd_pct : Option ℝ
  avg_pd : Option ℝ
  avg_pd_pct : Option ℝ
  stddev_pd : Option ℝ
  stddev_pd_pct : Option ℝ
  data_points : Nat
  required : Option Nat
  start_date : Option Date
  end_date : Option Date

open Classical in
/-- Statistics stage of lines 152-196: the zero-stddev early return and
the regular z-score return, which share every field except z_score. -/
noncomputable def statsResult (w : List Obs) (startD endD : Date) : ZDict :=
  if stddev_pd w = 0 then
    { status := "active"
      z_score := some 0
      current_pd := some ((current_pd w : ℚ) : ℝ)
      current_pd_pct := some (((current_pd w : ℚ) : ℝ) * 100)
      avg_pd := some ((avg_pd w : ℚ) : ℝ)
      avg_pd_pct := some (((avg_pd w : ℚ) : ℝ) * 100)
      stddev_pd := some (stddev_pd w)
      stddev_pd_pct := some (stddev_pd w * 100)
      data_points := w.length
      required := none
      start_date := some startD
      end_date := some endD }
  else
    { status := "active"
      z_score := some ((((current_pd w : ℚ) : ℝ) - ((avg_pd w : ℚ) : ℝ)) / stddev_pd w)
      current_pd := some ((current_pd w : ℚ) : ℝ)
      current_pd_pct := some (((current_pd w : ℚ) : ℝ) * 100)
      avg_pd := some ((avg_pd w : ℚ) : ℝ)
      avg_pd_pct := some (((avg_pd w : ℚ) : ℝ) * 100)
      stddev_pd := some (stddev_pd w)
      stddev_pd_pct := some (stddev_pd w * 100)
      data_points := w.length
      required := none
      start_date := some startD
      end_date := some endD }

/-- Threshold check of lines 144-150 followed by the statistics stage:
fewer than 252 rows yields the three-key insufficient_data dictionary. -/
noncomputable def scoreWindow (w : List Obs) (startD endD : Date) : ZDict :=
  if w.length < 252 then
    { status := "insufficient_data"
      z_score := none
      current_pd := none
      current_pd_pct := none
      avg_pd := none
      avg_pd_pct := none
      stddev_pd := none
      stddev_pd_pct := none
      data_points := w.length
      required := some 252
      start_date := none
      end_date := none }
  else statsResult w startD endD

/-- Full pipeline of calculate_z_score_3yr (lines 104-196). -/
noncomputable def calculate_z_score_3yr
    (price_data nav_data : List RawPoint) (current : Date) : Option ZDict :=
  if price_data = [] ∨ nav_data = [] then none
  else if positiveOnly (innerJoinOnDate price_data nav_data) = [] then none
  else
    match selectWindow (availObs
        (sortByDate (positiveOnly (innerJoinOnDate price_data nav_data))) current) with
    | none => none
    | some (window, startD, endD) => some (scoreWindow window startD endD)

/-! Concrete data used by the witness theorems. -/

/-- A flat observation: fund and NAV both close at 10, premium/discount 0. -/
def flatObs : Obs := ⟨⟨2022, 1, 1⟩, 10, 10⟩

/-- An observation at a 100 percent premium: fund 20 against NAV 10. -/
def jumpObs : Obs := ⟨⟨2022, 1, 2⟩, 20, 10⟩

/-- A constant window of exactly 252 observations. -/
def wFlat252 : List Obs := List.replicate 252 flatObs

/-- A constant window of 251 observations, one short of the threshold. -/
def wFlat251 : List Obs := List.replicate 251 flatObs

/-- A window of 252 observations whose last entry breaks the constancy. -/
def wMix252 : List Obs := List.replicate 251 flatObs ++ [jumpObs]

/-- Observation dated on a leap day. -/
def leapObs : Obs := ⟨⟨2024, 2, 29⟩, 1, 1⟩

/-- Observation dated three years minus one day before the leap day. -/
def febObs : Obs := ⟨⟨2021, 2, 28⟩, 1, 1⟩

/-- Aligned sequence exercising the leap-day window boundary. -/
def leapAligned : List Obs := [febObs, leapObs]

/-- Small fund series. -/
def priceA : List RawPoint := [⟨⟨2024, 1, 2⟩, 5⟩, ⟨⟨2024, 1, 3⟩, 6⟩]

/-- The same fund series in the opposite order. -/
def priceB : List RawPoint := [⟨⟨2024, 1, 3⟩, 6⟩, ⟨⟨2024, 1, 2⟩, 5⟩]

/-- Small NAV series overlapping priceA on one date. -/
def navA : List RawPoint := [⟨⟨2024, 1, 2⟩, 4⟩, ⟨⟨2024, 1, 4⟩, 7⟩]

/-- The same NAV series in the opposite order. -/
def navB : List RawPoint := [⟨⟨2024, 1, 4⟩, 7⟩, ⟨⟨2024, 1, 2⟩, 4⟩]

/-- One-point fund series. -/
def priceOne : List RawPoint := [⟨⟨2024, 1, 2⟩, 5⟩]

/-- One-point NAV series on the same date. -/
def navOne : List RawPoint := [⟨⟨2024, 1, 2⟩, 4⟩]

/-- As-of date for the one-point series. -/
def dayOne : Date := ⟨2024, 1, 2⟩

/-- The insufficient-data dictionary produced for the one-point series. -/
def rIns : ZDict :=
  { status := "insufficient_data", z_score := none, current_pd := none,
    current_pd_pct := none, avg_pd := none, avg_pd_pct := none,
    stddev_pd := none, stddev_pd_pct := none, data_points := 1,
    required := some 252, start_date := none, end_date := none }

/-! Helper lemmas about dates, folds and list statistics. -/

theorem ite_lt_eq_max (a d : Date) : (if a < d then d else a) = max a d := by
  rcases lt_or_ge a d with h | h
  · rw [if_pos h, max_eq_right h.le]
  · rw [if_neg (not_lt.mpr h), max_eq_left h]

theorem le_foldl_max_init (ds : List Date) (i : Date) : i ≤ ds.foldl max i := by
  induction ds generalizing i with
  | nil => exact le_refl i
  | cons d t ih =>
    calc i ≤ max i d := le_max_left i d
    _ ≤ t.foldl max (max i d) := ih (max i d)

theorem le_foldl_max (ds : List Date) (i : Date) :
    ∀ x ∈ ds, x ≤ ds.foldl max i := by
  induction ds generalizing i with
  | nil => intro x hx; cases hx
  | cons d t ih =>
    intro x hx
    rcases List.mem_cons.mp hx with he | hm
    · subst he
      calc x ≤ max i x := le_max_right i x
      _ ≤ t.foldl max (max i x) := le_foldl_max_init t (max i x)
    · exact ih (max i d) x hm

theorem foldl_max_mem (ds : List Date) (i : Date) :
    ds.foldl max i = i ∨ ds.foldl max i ∈ ds := by
  induction ds generalizing i with
  | nil => exact Or.inl rfl
  | cons d t ih =>
    rcases ih (max i d) with h | h
    · rcases le_total d i with hd | hd
      · left; rw [List.foldl_cons, h, max_eq_left hd]
      · right; rw [List.foldl_cons, h, max_eq_right hd]; exact List.mem_cons_self d t
    · right; exact List.mem_cons_of_mem d h

theorem windowEnd_eq_foldl (a : Obs) (rest : List Obs) :
    windowEnd a rest = ((rest.map fun o => o.date).foldl max a.date) := by
  unfold windowEnd
  rw [List.foldl_map]
  congr 1
  funext acc o
  exact ite_lt_eq_max acc o.date

theorem windowEnd_is_max (a : Obs) (rest : List Obs) :
    (∀ o ∈ a :: rest, o.date ≤ windowEnd a rest) ∧
      windowEnd a rest ∈ ((a :: rest).map fun o => o.date) := by
  rw [windowEnd_eq_foldl]
  constructor
  · intro o ho
    rcases List.mem_cons.mp ho with he | hm
    · subst he; exact le_foldl_max_init _ _
    · exact le_foldl_max _ _ o.date (List.mem_map_of_mem _ hm)
  · rcases foldl_max_mem (rest.map fun o => o.date) a.date with h | h
    · rw [List.map_cons, h]; exact List.mem_cons_self _ _
    · rw [List.map_cons]; exact List.mem_cons_of_mem _ h

theorem sum_eq_range_getD (l : List ℚ) :
    l.sum = ∑ i ∈ Finset.range l.length, l.getD i 0 := by
  induction l with
  | nil => simp
  | cons a t ih =>
    rw [List.sum_cons, List.length_cons, Finset.sum_range_succ']
    simp only [List.getD_cons_succ, List.getD_cons_zero]
    rw [ih]
    ring

theorem getD_map_sq (l : List ℚ) (f : ℚ → ℚ) {i : ℕ} (h : i < l.length) :
    (l.map f).getD i 0 = f (l.getD i 0) := by
  rw [List.getD_eq_getElem _ _ (by simpa using h), List.getD_eq_getElem _ _ h,
    List.getElem_map]

theorem getLastD_map_ne_nil (w : List Obs) (f : Obs → ℚ) (h : w ≠ []) :
    (w.map f).getLastD 0 = f (w.getLast h) := by
  rw [List.getLastD_eq_getLast?, List.getLast?_map, List.getLast?_eq_getLast w h]
  rfl

theorem prem_disc_length (w : List Obs) : (prem_disc w).length = w.length :=
  List.length_map w _

theorem variance_nonneg (w : List Obs) : 0 ≤ variance w := by
  unfold variance
  apply div_nonneg
  · apply List.sum_nonneg
    intro x hx
    obtain ⟨y, _, rfl⟩ := List.mem_map.mp hx
    exact sq_nonneg _
  · exact_mod_cast Nat.zero_le _

theorem stddev_eq_zero_iff (w : List Obs) : stddev_pd w = 0 ↔ variance w = 0 := by
  unfold stddev_pd
  rw [Real.sqrt_eq_zero']
  constructor
  · intro h
    have h0 : variance w ≤ 0 := by exact_mod_cast h
    exact le_antisymm h0 (variance_nonneg w)
  · intro h
    rw [h]
    simp

/-! Helper lemmas for the alignment stage: permutation invariance,
uniqueness of the sorted order, and membership characterisation. -/

theorem sorted_eq_of_perm_of_nodup_dates {l1 l2 : List Obs} (hp : l1.Perm l2)
    (h1 : List.Sorted byDate l1) (h2 : List.Sorted byDate l2)
    (hnd : (l1.map fun o => o.date).Nodup) : l1 = l2 := by
  induction l1 generalizing l2 with
  | nil => exact (hp.symm.eq_nil).symm
  | cons a t ih =>
    cases l2 with
    | nil => exact absurd hp.eq_nil (by simp)
    | cons b t2 =>
      have hab : a = b := by
        have ha2 : a ∈ b :: t2 := hp.mem_iff.mp (List.mem_cons_self a t)
        rcases List.mem_cons.mp ha2 with he | hat2
        · exact he
        · have hb1 : b ∈ a :: t := hp.symm.mem_iff.mp (List.mem_cons_self b t2)
          rcases List.mem_cons.mp hb1 with he | hbt1
          · exact he.symm
          · exfalso
            have hab_le : a.date ≤ b.date := List.rel_of_pairwise_cons h1 hbt1
            have hba_le : b.date ≤ a.date := List.rel_of_pairwise_cons h2 hat2
            have heq : a.date = b.date := le_antisymm hab_le hba_le
            have hmem : a.date ∈ t.map fun o => o.date :=
              heq ▸ List.mem_map_of_mem _ hbt1
            rw [List.map_cons, List.nodup_cons] at hnd
            exact hnd.1 hmem
      subst hab
      have htails : t = t2 := by
        apply ih hp.cons_inv h1.of_cons h2.of_cons
        rw [List.map_cons, List.nodup_cons] at hnd
        exact hnd.2
      rw [htails]

theorem filter_date_small (nav : List RawPoint)
    (hn : (nav.map fun q => q.date).Nodup) (d : Date) :
    (nav.filter fun q => decide (q.date = d)) = [] ∨
      ∃ q, (nav.filter fun q => decide (q.date = d)) = [q] ∧ q ∈ nav := by
  induction nav with
  | nil => exact Or.inl rfl
  | cons q t ih =>
    rw [List.map_cons, List.nodup_cons] at hn
    by_cases hq : q.date = d
    · right
      refine ⟨q, ?_, List.mem_cons_self q t⟩
      have hft : (t.filter fun r => decide (r.date = d)) = [] := by
        rw [List.filter_eq_nil_iff]
        intro x hx hdx
        rw [decide_eq_true_eq] at hdx
        apply hn.1
        rw [hq, ← hdx]
        exact List.mem_map_of_mem _ hx
      rw [List.filter_cons_of_pos (by simpa using hq), hft]
    · rw [List.filter_cons_of_neg (by simpa using hq)]
      rcases ih hn.2 with h | ⟨r, hr, hrm⟩
      · exact Or.inl h
      · exact Or.inr ⟨r, hr, List.mem_cons_of_mem q hrm⟩

theorem join_dates_sublist (price nav : List RawPoint)
    (hn : (nav.map fun q => q.date).Nodup) :
    ((innerJoinOnDate price nav).map fun o => o.date).Sublist
      (price.map fun p => p.date) := by
  induction price with
  | nil => simp [innerJoinOnDate]
  | cons p pt ih =>
    unfold innerJoinOnDate at ih ⊢
    rw [List.flatMap_cons, List.map_append, List.map_cons]
    rcases filter_date_small nav hn p.date with h | ⟨q, hq, _⟩
    · rw [h]
      simp only [List.map_nil, List.nil_append]
      exact ih.cons _
    · rw [hq]
      simp only [List.map_cons, List.map_nil]
      exact ih.cons₂ _

theorem align_dates_nodup (price nav : List RawPoint)
    (hp : (price.map fun p => p.date).Nodup)
    (hn : (nav.map fun q => q.date).Nodup) :
    ((alignObs price nav).map fun o => o.date).Nodup := by
  have h1 : ((positiveOnly (innerJoinOnDate price nav)).map fun o => o.date).Sublist
      ((innerJoinOnDate price nav).map fun o => o.date) :=
    (List.filter_sublist _).map _
  have h3 : ((positiveOnly (innerJoinOnDate price nav)).map fun o => o.date).Nodup :=
    ((h1.trans (join_dates_sublist price nav hn)).nodup) hp
  have hperm : (alignObs price nav).Perm (positiveOnly (innerJoinOnDate price nav)) :=
    List.perm_insertionSort byDate _
  exact ((hperm.map _).nodup_iff).mpr h3

theorem positive_join_perm {p p' n n' : List RawPoint}
    (hp : p.Perm p') (hn : n.Perm n') :
    (positiveOnly (innerJoinOnDate p n)).Perm
      (positiveOnly (innerJoinOnDate p' n')) := by
  apply List.Perm.filter
  have h1 : (innerJoinOnDate p n).Perm (innerJoinOnDate p' n) :=
    List.Perm.flatMap_right _ hp
  have h2 : (innerJoinOnDate p' n).Perm (innerJoinOnDate p' n') := by
    apply List.Perm.flatMap_left
    intro a _
    exact (hn.filter _).map _
  exact h1.trans h2

/-- C6: every aligned observation comes from an exact date match between the
two input series, carries exactly those two closes, and has strictly positive
fund and NAV closes; hence no row with a non-positive close on either side
ever enters the aligned sequence. -/
theorem alignObs_mem_spec (price nav : List RawPoint) (o : Obs)
    (h : o ∈ alignObs price nav) :
    0 < o.close_price ∧ 0 < o.close_nav ∧
      ∃ pr ∈ price, ∃ nv ∈ nav, pr.date = o.date ∧ nv.date = o.date ∧
        pr.close = o.close_price ∧ nv.close = o.close_nav := by
  unfold alignObs sortByDate at h
  rw [List.mem_insertionSort] at h
  unfold positiveOnly at h
  rw [List.mem_filter] at h
  obtain ⟨hj, hpos⟩ := h
  simp only [Bool.and_eq_true, decide_eq_true_eq] at hpos
  refine ⟨hpos.1, hpos.2, ?_⟩
  unfold innerJoinOnDate at hj
  rw [List.mem_flatMap] at hj
  obtain ⟨pr, hpr, hseg⟩ := hj
  rw [List.mem_map] at hseg
  obtain ⟨nv, hnv, hform⟩ := hseg
  rw [List.mem_filter] at hnv
  obtain ⟨hnvmem, hnvdate⟩ := hnv
  rw [decide_eq_true_eq] at hnvdate
  refine ⟨pr, hpr, nv, hnvmem, ?_, ?_, ?_, ?_⟩ <;> rw [← hform]
  exact hnvdate

/-- Witness for C6 at a concrete overlapping pair of series. -/
theorem alignObs_mem_spec_witness :
    0 < (⟨⟨2024, 1, 2⟩, 5, 4⟩ : Obs).close_price ∧
      0 < (⟨⟨2024, 1, 2⟩, 5, 4⟩ : Obs).close_nav ∧
      ∃ pr ∈ priceA, ∃ nv ∈ navA,
        pr.date = (⟨⟨2024, 1, 2⟩, 5, 4⟩ : Obs).date ∧
        nv.date = (⟨⟨2024, 1, 2⟩, 5, 4⟩ : Obs).date ∧
        pr.close = (⟨⟨2024, 1, 2⟩, 5, 4⟩ : Obs).close_price ∧
        nv.close = (⟨⟨2024, 1, 2⟩, 5, 4⟩ : Obs).close_nav :=
  alignObs_mem_spec priceA navA ⟨⟨2024, 1, 2⟩, 5, 4⟩ (by decide)

/-- C7: for input series with pairwise distinct dates, the aligned sequence
is sorted ascending by date, and permuting either input series leaves the
aligned sequence unchanged. -/
theorem alignObs_sorted_and_order_insensitive (p p' n n' : List RawPoint)
    (hpp : p.Perm p') (hnn : n.Perm n')
    (hdp : (p.map fun x => x.date).Nodup) (hdn : (n.map fun x => x.date).Nodup) :
    List.Sorted byDate (alignObs p n) ∧ alignObs p n = alignObs p' n' := by
  have hs1 : List.Sorted byDate (alignObs p n) := List.sorted_insertionSort byDate _
  have hs2 : List.Sorted byDate (alignObs p' n') := List.sorted_insertionSort byDate _
  refine ⟨hs1, ?_⟩
  apply sorted_eq_of_perm_of_nodup_dates ?_ hs1 hs2 (align_dates_nodup p n hdp hdn)
  exact (List.perm_insertionSort byDate _).trans
    ((positive_join_perm hpp hnn).trans (List.perm_insertionSort byDate _).symm)

/-- Witness for C7: reversing both two-element input series leaves the
aligned sequence unchanged and sorted. -/
theorem alignObs_sorted_and_order_insensitive_witness :
    List.Sorted byDate (alignObs priceA navA) ∧
      alignObs priceA navA = alignObs priceB navB :=
  alignObs_sorted_and_order_insensitive priceA priceB navA navB
    (by decide) (by decide) (by decide) (by decide)

/-- C3 (amended): when window selection succeeds on the candidates at or
before the as-of date, the end bound is the maximum candidate date, the
start bound is the end minus three calendar years in the clamped pandas
DateOffset sense, the window holds exactly the candidates between the two
bounds, and no selected observation is dated after the as-of date or
before the clamped start. -/
theorem selectWindow_spec (l : List Obs) (d : Date) (w : List Obs) (sd ed : Date)
    (h : selectWindow (availObs l d) = some (w, sd, ed)) :
    sd = ed.subYears 3 ∧
      ed ∈ ((availObs l d).map fun o => o.date) ∧
      (∀ o ∈ availObs l d, o.date ≤ ed) ∧
      (∀ o, o ∈ w ↔ o ∈ availObs l d ∧ sd ≤ o.date ∧ o.date ≤ ed) ∧
      (∀ o ∈ w, o.date ≤ d ∧ ¬ o.date < sd) := by
  cases havail : availObs l d with
  | nil => rw [havail] at h; exact absurd h (by simp [selectWindow])
  | cons a rest =>
    rw [havail] at h
    unfold selectWindow at h
    rw [Option.some.injEq, Prod.mk.injEq] at h
    obtain ⟨hw, hpair⟩ := h
    rw [Prod.mk.injEq] at hpair
    obtain ⟨hsd, hed⟩ := hpair
    subst hed
    subst hsd
    subst hw
    refine ⟨rfl, ?_, ?_, ?_, ?_⟩
    · exact (windowEnd_is_max a rest).2
    · exact (windowEnd_is_max a rest).1
    · intro o
      rw [List.mem_filter]
      simp only [Bool.and_eq_true, decide_eq_true_eq]
      try tauto
    · intro o ho
      rw [List.mem_filter] at ho
      obtain ⟨hmem, hcond⟩ := ho
      simp only [Bool.and_eq_true, decide_eq_true_eq] at hcond
      constructor
      · have hoav : o ∈ availObs l d := by rw [havail]; exact hmem
        unfold availObs at hoav
        rw [List.mem_filter, decide_eq_true_eq] at hoav
        exact hoav.2
      · exact not_lt.mpr hcond.1

/-- Witness for C3 at the one-point aligned sequence. -/
theorem selectWindow_spec_witness :
    (⟨2021, 1, 2⟩ : Date) = (⟨2024, 1, 2⟩ : Date).subYears 3 ∧
      (⟨2024, 1, 2⟩ : Date) ∈ ((availObs [⟨⟨2024, 1, 2⟩, 5, 4⟩] dayOne).map fun o => o.date) ∧
      (∀ o ∈ availObs [(⟨⟨2024, 1, 2⟩, 5, 4⟩ : Obs)] dayOne, o.date ≤ ⟨2024, 1, 2⟩) ∧
      (∀ o, o ∈ [(⟨⟨2024, 1, 2⟩, 5, 4⟩ : Obs)] ↔
        o ∈ availObs [(⟨⟨2024, 1, 2⟩, 5, 4⟩ : Obs)] dayOne ∧
          (⟨2021, 1, 2⟩ : Date) ≤ o.date ∧ o.date ≤ ⟨2024, 1, 2⟩) ∧
      (∀ o ∈ [(⟨⟨2024, 1, 2⟩, 5, 4⟩ : Obs)], o.date ≤ dayOne ∧ ¬ o.date < ⟨2021, 1, 2⟩) :=
  selectWindow_spec [⟨⟨2024, 1, 2⟩, 5, 4⟩] dayOne
    [⟨⟨2024, 1, 2⟩, 5, 4⟩] ⟨2021, 1, 2⟩ ⟨2024, 1, 2⟩ (by decide)

/-- C3 counterexample to the unamended claim: with the window ending on the
leap day 2024-02-29 the code produces the start bound 2021-02-28, not the
same-month-same-day date 2021-02-29, and it keeps an observation dated
2021-02-28, which lies strictly before 2021-02-29. -/
theorem selectWindow_leap_day_counterexample :
    selectWindow (availObs leapAligned ⟨2024, 2, 29⟩) =
        some ([febObs, leapObs], ⟨2021, 2, 28⟩, ⟨2024, 2, 29⟩) ∧
      (⟨2021, 2, 28⟩ : Date) ≠ ⟨2021, 2, 29⟩ ∧
      febObs ∈ [febObs, leapObs] ∧
      febObs.date < ⟨2021, 2, 29⟩ := by
  refine ⟨by decide, by decide, by decide, by decide⟩

/-- C4: a window below 252 observations yields the three-key
insufficient_data dictionary carrying the actual count and the 252
threshold with no statistics, while any window of at least 252
observations (in particular exactly 252) yields status active. -/
theorem scoreWindow_threshold (w : List Obs) (sd ed : Date) :
    (w.length < 252 →
      scoreWindow w sd ed =
        { status := "insufficient_data", z_score := none, current_pd := none,
          current_pd_pct := none, avg_pd := none, avg_pd_pct := none,
          stddev_pd := none, stddev_pd_pct := none, data_points := w.length,
          required := some 252, start_date := none, end_date := none }) ∧
    (252 ≤ w.length → (scoreWindow w sd ed).status = "active") := by
  constructor
  · intro h
    unfold scoreWindow
    rw [if_pos h]
  · intro h
    unfold scoreWindow
    rw [if_neg (by omega)]
    unfold statsResult
    split <;> rfl

/-- Witness for C4 at windows of 251 and exactly 252 observations. -/
theorem scoreWindow_threshold_witness :
    scoreWindow wFlat251 ⟨2019, 1, 1⟩ ⟨2022, 1, 1⟩ =
        { status := "insufficient_data", z_score := none, current_pd := none,
          current_pd_pct := none, avg_pd := none, avg_pd_pct := none,
          stddev_pd := none, stddev_pd_pct := none, data_points := wFlat251.length,
          required := some 252, start_date := none, end_date := none } ∧
      (scoreWindow wFlat252 ⟨2019, 1, 1⟩ ⟨2022, 1, 1⟩).status = "active" :=
  ⟨(scoreWindow_threshold wFlat251 ⟨2019, 1, 1⟩ ⟨2022, 1, 1⟩).1
      (by unfold wFlat251; rw [List.length_replicate]; omega),
    (scoreWindow_threshold wFlat252 ⟨2019, 1, 1⟩ ⟨2022, 1, 1⟩).2
      (by unfold wFlat252; rw [List.length_replicate])⟩

/-- C5: on an accepted window whose population standard deviation is zero
the computation still returns an active result, defining the score as 0
and carrying the premium/discount statistics, the count and the window
bounds. -/
theorem scoreWindow_zero_stddev (w : List Obs) (sd ed : Date)
    (hlen : 252 ≤ w.length) (h0 : stddev_pd w = 0) :
    scoreWindow w sd ed =
      { status := "active", z_score := some 0,
        current_pd := some ((current_pd w : ℚ) : ℝ),
        current_pd_pct := some (((current_pd w : ℚ) : ℝ) * 100),
        avg_pd := some ((avg_pd w : ℚ) : ℝ),
        avg_pd_pct := some (((avg_pd w : ℚ) : ℝ) * 100),
        stddev_pd := some (stddev_pd w),
        stddev_pd_pct := some (stddev_pd w * 100),
        data_points := w.length, required := none,
        start_date := some sd, end_date := some ed } := by
  unfold scoreWindow
  rw [if_neg (by omega)]
  unfold statsResult
  rw [if_pos h0]

/-- Witness for C5 at a constant window of 252 observations. -/
theorem scoreWindow_zero_stddev_witness :
    scoreWindow wFlat252 ⟨2019, 1, 1⟩ ⟨2022, 1, 1⟩ =
      { status := "active", z_score := some 0,
        current_pd := some ((current_pd wFlat252 : ℚ) : ℝ),
        current_pd_pct := some (((current_pd wFlat252 : ℚ) : ℝ) * 100),
        avg_pd := some ((avg_pd wFlat252 : ℚ) : ℝ),
        avg_pd_pct := some (((avg_pd wFlat252 : ℚ) : ℝ) * 100),
        stddev_pd := some (stddev_pd wFlat252),
        stddev_pd_pct := some (stddev_pd wFlat252 * 100),
        data_points := wFlat252.length, required := none,
        start_date := some ⟨2019, 1, 1⟩, end_date := some ⟨2022, 1, 1⟩ } := by
  have h1 : prem_disc wFlat252 = List.replicate 252 0 := by
    unfold prem_disc wFlat252
    rw [List.map_replicate]
    congr 1
    norm_num [flatObs]
  have ha : avg_pd wFlat252 = 0 := by
    unfold avg_pd
    rw [h1, List.sum_replicate, smul_zero, zero_div]
  have hv : variance wFlat252 = 0 := by
    unfold variance
    rw [h1, ha, List.map_replicate, List.sum_replicate, List.length_replicate]
    norm_num
  exact scoreWindow_zero_stddev wFlat252 ⟨2019, 1, 1⟩ ⟨2022, 1, 1⟩
    (by unfold wFlat252; rw [List.length_replicate])
    ((stddev_eq_zero_iff wFlat252).mpr hv)

/-- C1: on every window accepted by the threshold check, the reported
standard deviation is the square root of the population variance: the sum
of squared deviations from the mean divided by the observation count n
itself, never by n minus one. -/
theorem scoreWindow_stddev_population (w : List Obs) (sd ed : Date)
    (h : 252 ≤ w.length) :
    (scoreWindow w sd ed).stddev_pd =
      some (Real.sqrt (((∑ i ∈ Finset.range w.length,
          ((prem_disc w).getD i 0 -
            (∑ j ∈ Finset.range w.length, (prem_disc w).getD j 0) / (w.length : ℚ)) ^ 2)
        / (w.length : ℚ) : ℚ) : ℝ)) := by
  have ha : avg_pd w =
      (∑ j ∈ Finset.range w.length, (prem_disc w).getD j 0) / (w.length : ℚ) := by
    unfold avg_pd
    rw [sum_eq_range_getD, prem_disc_length]
  have hv : variance w =
      (∑ i ∈ Finset.range w.length, ((prem_disc w).getD i 0 - avg_pd w) ^ 2)
        / (w.length : ℚ) := by
    unfold variance
    rw [sum_eq_range_getD, List.length_map, prem_disc_length]
    congr 1
    apply Finset.sum_congr rfl
    intro i hi
    rw [getD_map_sq _ _ (by rw [prem_disc_length]; exact Finset.mem_range.mp hi)]
  unfold scoreWindow
  rw [if_neg (by omega)]
  unfold statsResult
  split <;>
  · show some (stddev_pd w) = _
    unfold stddev_pd
    rw [hv, ha]

/-- Witness for C1 at a constant window of 252 observations. -/
theorem scoreWindow_stddev_population_witness :
    (scoreWindow wFlat252 ⟨2019, 1, 1⟩ ⟨2022, 1, 1⟩).stddev_pd =
      some (Real.sqrt (((∑ i ∈ Finset.range wFlat252.length,
          ((prem_disc wFlat252).getD i 0 -
            (∑ j ∈ Finset.range wFlat252.length, (prem_disc wFlat252).getD j 0)
              / (wFlat252.length : ℚ)) ^ 2)
        / (wFlat252.length : ℚ) : ℚ) : ℝ)) :=
  scoreWindow_stddev_population wFlat252 ⟨2019, 1, 1⟩ ⟨2022, 1, 1⟩
    (by unfold wFlat252; rw [List.length_replicate])

/-- C2: on every accepted window with nonzero population standard
deviation, each premium/discount equals fund close over NAV close minus
one, the current premium/discount is the one of the last observation, the
average is the arithmetic mean over the whole window, and the score is the
current value minus the mean, divided by the population standard
deviation. -/
theorem scoreWindow_z_formula (w : List Obs) (sd ed : Date) (hw : w ≠ [])
    (hlen : 252 ≤ w.length) (hsd : stddev_pd w ≠ 0) :
    (∀ i (hi : i < w.length),
        (prem_disc w).getD i 0 =
          (w.get ⟨i, hi⟩).close_price / (w.get ⟨i, hi⟩).close_nav - 1) ∧
    (scoreWindow w sd ed).current_pd =
      some (((w.getLast hw).close_price / (w.getLast hw).close_nav - 1 : ℚ) : ℝ) ∧
    (scoreWindow w sd ed).avg_pd =
      some (((∑ j ∈ Finset.range w.length, (prem_disc w).getD j 0)
        / (w.length : ℚ) : ℚ) : ℝ) ∧
    (scoreWindow w sd ed).z_score =
      some ((((w.getLast hw).close_price / (w.getLast hw).close_nav - 1
          - (∑ j ∈ Finset.range w.length, (prem_disc w).getD j 0) / (w.length : ℚ)
        : ℚ) : ℝ) / stddev_pd w) := by
  have hcur : current_pd w =
      (w.getLast hw).close_price / (w.getLast hw).close_nav - 1 := by
    unfold current_pd prem_disc
    exact getLastD_map_ne_nil w _ hw
  have ha : avg_pd w =
      (∑ j ∈ Finset.range w.length, (prem_disc w).getD j 0) / (w.length : ℚ) := by
    unfold avg_pd
    rw [sum_eq_range_getD, prem_disc_length]
  refine ⟨?_, ?_, ?_, ?_⟩
  · intro i hi
    unfold prem_disc
    rw [List.getD_eq_getElem _ _ (by simpa using hi), List.getElem_map]
    rfl
  · unfold scoreWindow
    rw [if_neg (by omega)]
    unfold statsResult
    split
    · next h0 => exact absurd h0 hsd
    · show some ((current_pd w : ℚ) : ℝ) = _
      rw [hcur]
  · unfold scoreWindow
    rw [if_neg (by omega)]
    unfold statsResult
    split
    · next h0 => exact absurd h0 hsd
    · show some ((avg_pd w : ℚ) : ℝ) = _
      rw [ha]
  · unfold scoreWindow
    rw [if_neg (by omega)]
    unfold statsResult
    split
    · next h0 => exact absurd h0 hsd
    · show some ((((current_pd w : ℚ) : ℝ) - ((avg_pd w : ℚ) : ℝ)) / stddev_pd w) = _
      rw [hcur, ha]
      push_cast
      ring_nf

/-- Witness for C2 at a 252-observation window with one distinct value. -/
theorem scoreWindow_z_formula_witness :
    (scoreWindow wMix252 ⟨2019, 1, 1⟩ ⟨2022, 1, 2⟩).avg_pd =
      some (((∑ j ∈ Finset.range wMix252.length, (prem_disc wMix252).getD j 0)
        / (wMix252.length : ℚ) : ℚ) : ℝ) := by
  have h1 : prem_disc wMix252 = List.replicate 251 0 ++ [1] := by
    unfold prem_disc wMix252
    rw [List.map_append, List.map_replicate]
    congr 1
    · congr 1
      norm_num [flatObs]
    · norm_num [jumpObs]
  have ha : avg_pd wMix252 = 1 / 252 := by
    unfold avg_pd
    rw [h1, List.sum_append, List.sum_replicate, smul_zero, List.length_append,
      List.length_replicate]
    norm_num
  have hv : variance wMix252 = 251 / 63504 := by
    unfold variance
    rw [h1, ha, List.map_append, List.map_replicate, List.sum_append,
      List.sum_replicate, List.length_append, List.length_replicate]
    rw [nsmul_eq_mul]
    norm_num
  have hsd : stddev_pd wMix252 ≠ 0 := by
    unfold stddev_pd
    rw [hv]
    have hpos : (0 : ℝ) < Real.sqrt ((251 / 63504 : ℚ) : ℝ) := by
      apply Real.sqrt_pos.mpr
      norm_num
    exact ne_of_gt hpos
  exact (scoreWindow_z_formula wMix252 ⟨2019, 1, 1⟩ ⟨2022, 1, 2⟩
    (by
      apply List.ne_nil_of_length_pos
      unfold wMix252
      rw [List.length_append, List.length_replicate]
      simp only [List.length_cons, List.length_nil]
      omega)
    (by unfold wMix252; rw [List.length_append, List.length_replicate]; simp only [List.length_cons, List.length_nil]; omega)
    hsd).2.2.1

/-- C8: an empty input series, an empty positive aligned result, or the
absence of any aligned observation at or before the as-of date all make the
computation return none rather than an error or a score. -/
theorem calc_none_cases (p n : List RawPoint) (d : Date)
    (h : p = [] ∨ n = [] ∨ positiveOnly (innerJoinOnDate p n) = [] ∨
      (positiveOnly (innerJoinOnDate p n)).filter (fun o => decide (o.date ≤ d)) = []) :
    calculate_z_score_3yr p n d = none := by
  unfold calculate_z_score_3yr
  by_cases h1 : p = [] ∨ n = []
  · rw [if_pos h1]
  · rw [if_neg h1]
    by_cases h2 : positiveOnly (innerJoinOnDate p n) = []
    · rw [if_pos h2]
    · rw [if_neg h2]
      have h3 : (positiveOnly (innerJoinOnDate p n)).filter
          (fun o => decide (o.date ≤ d)) = [] := by tauto
      have hperm := (List.perm_insertionSort byDate
        (positiveOnly (innerJoinOnDate p n))).filter
          (fun o => decide (o.date ≤ d))
      rw [h3] at hperm
      have h4 : availObs (sortByDate (positiveOnly (innerJoinOnDate p n))) d = [] :=
        hperm.eq_nil
      rw [h4]
      rfl

/-- Witness for C8 with an empty fund series. -/
theorem calc_none_cases_witness : calculate_z_score_3yr [] navOne dayOne = none :=
  calc_none_cases [] navOne dayOne (Or.inl rfl)

/-- C9: the computation is a pure function of its three inputs; equal
inputs give equal results. -/
theorem calc_deterministic (p1 p2 n1 n2 : List RawPoint) (d1 d2 : Date)
    (hp : p1 = p2) (hn : n1 = n2) (hd : d1 = d2) :
    calculate_z_score_3yr p1 n1 d1 = calculate_z_score_3yr p2 n2 d2 := by
  rw [hp, hn, hd]

/-- Witness for C9 at the one-point series. -/
theorem calc_deterministic_witness :
    calculate_z_score_3yr priceOne navOne dayOne =
      calculate_z_score_3yr priceOne navOne dayOne :=
  calc_deterministic priceOne priceOne navOne navOne dayOne dayOne rfl rfl rfl

/-- C10: whenever the returned dictionary has status insufficient_data it
carries only the status, the count and the 252 threshold, with no score,
no statistics and no window bounds, while an active dictionary carries all
of those fields and no threshold key. -/
theorem calc_field_presence (p n : List RawPoint) (d : Date) (r : ZDict)
    (h : calculate_z_score_3yr p n d = some r) :
    (r.status = "insufficient_data" →
      r.required = some 252 ∧ r.z_score = none ∧ r.current_pd = none ∧
      r.current_pd_pct = none ∧ r.avg_pd = none ∧ r.avg_pd_pct = none ∧
      r.stddev_pd = none ∧ r.stddev_pd_pct = none ∧ r.start_date = none ∧
      r.end_date = none) ∧
    (r.status = "active" →
      r.required = none ∧ r.z_score.isSome ∧ r.current_pd.isSome ∧
      r.current_pd_pct.isSome ∧ r.avg_pd.isSome ∧ r.avg_pd_pct.isSome ∧
      r.stddev_pd.isSome ∧ r.stddev_pd_pct.isSome ∧ r.start_date.isSome ∧
      r.end_date.isSome) := by
  unfold calculate_z_score_3yr at h
  split at h
  · exact absurd h (by simp)
  · split at h
    · exact absurd h (by simp)
    · split at h
      · exact absurd h (by simp)
      · rw [Option.some.injEq] at h
        subst h
        unfold scoreWindow
        split
        · constructor
          · intro _
            exact ⟨rfl, rfl, rfl, rfl, rfl, rfl, rfl, rfl, rfl, rfl⟩
          · intro habs
            exact absurd (show ("insufficient_data" : String) = "active" from habs)
              (by decide)
        · unfold statsResult
          split
          · constructor
            · intro habs
              exact absurd (show ("active" : String) = "insufficient_data" from habs)
                (by decide)
            · intro _
              exact ⟨rfl, rfl, rfl, rfl, rfl, rfl, rfl, rfl, rfl, rfl⟩
          · constructor
            · intro habs
              exact absurd (show ("active" : String) = "insufficient_data" from habs)
                (by decide)
            · intro _
              exact ⟨rfl, rfl, rfl, rfl, rfl, rfl, rfl, rfl, rfl, rfl⟩

/-- Witness for C10 at the one-point series, which yields the
insufficient-data dictionary. -/
theorem calc_field_presence_witness :
    rIns.required = some 252 ∧ rIns.z_score = none ∧ rIns.start_date = none ∧
      rIns.end_date = none := by
  have h := (calc_field_presence priceOne navOne dayOne rIns (by rfl)).1 rfl
  exact ⟨h.1, h.2.1, h.2.2.2.2.2.2.2.2.1, h.2.2.2.2.2.2.2.2.2⟩
